import Mathlib

/-!
Verification of the obsidian-leaflet sources against their specification.

The development shallowly embeds the three source files:
  * `src/unnamed/part_000` (utils): `getId`, `parseLink`, `getParamsFromSource`,
    `getImmutableItems` (the inline marker / command-marker loops and the guard
    of the cross-document phase);
  * `src/layer/marker.ts`: the `Marker` entity, its constructor, the
    `shouldShow` / `shouldHide` visibility predicates and `toProperties`;
  * `src/main.ts`: the `saveSettings` pruning of persisted map records.

JavaScript values are modelled explicitly: strings as `String`, numbers as `ℚ`
(the numeric literals exercised here are exact in both IEEE doubles and `ℚ`),
`undefined`/`null` through `Option` or dedicated constructors, and exceptions
as `Except String`.  External libraries (the host's YAML parser, `papaparse`,
`JSON.stringify`/`JSON.parse`) are modelled by executable functions whose doc
comments state the modelled behaviour and its scope.
-/

/-- Decidable equality for `Except`, used to evaluate the embedded functions
on concrete inputs. -/
instance exceptDecEq {ε α : Type} [DecidableEq ε] [DecidableEq α] : DecidableEq (Except ε α)
  | .ok a, .ok b =>
    if h : a = b then .isTrue (by rw [h]) else .isFalse (by intro hc; cases hc; exact h rfl)
  | .error a, .error b =>
    if h : a = b then .isTrue (by rw [h]) else .isFalse (by intro hc; cases hc; exact h rfl)
  | .ok _, .error _ => .isFalse (by intro hc; cases hc)
  | .error _, .ok _ => .isFalse (by intro hc; cases hc)

namespace Leaflet

/-! ## Character/string utilities (kernel-reducible replacements for the
`String` API, all structurally recursive or fueled). -/

/-- Whitespace test covering the characters relevant to the block
micro-language (space, tab, newline, carriage return). -/
def isWsChar (c : Char) : Bool := c = ' ' || c = '\t' || c = '\n' || c = '\r'

/-- Digit test. -/
def isDigitChar (c : Char) : Bool := '0' ≤ c && c ≤ '9'

/-- Drop surrounding whitespace from a character list (JS `String.trim`). -/
def trimCs (cs : List Char) : List Char :=
  ((cs.dropWhile isWsChar).reverse.dropWhile isWsChar).reverse

/-- JS `String.trim`. -/
def strTrim (s : String) : String := String.mk (trimCs s.data)

/-- Fueled splitter: split `cs` at every occurrence of the non-empty
separator `sep` (semantics of JS `String.split` on a plain string). -/
def splitAux (sep : List Char) : Nat → List Char → List Char → List (List Char)
  | 0, cs, acc => [acc.reverse ++ cs]
  | fuel + 1, cs, acc =>
    match cs with
    | [] => [acc.reverse]
    | c :: rest =>
      if sep.isPrefixOf cs then acc.reverse :: splitAux sep fuel (cs.drop sep.length) []
      else splitAux sep fuel rest (c :: acc)

def listSplitOn (sep cs : List Char) : List (List Char) := splitAux sep (cs.length + 1) cs []

/-- JS `s.split(sep)` for a non-empty plain-string separator. -/
def strSplitOn (sep s : String) : List String := (listSplitOn sep.data s.data).map String.mk

/-- Replace the first occurrence of `pat` in a character list
(JS `String.replace` with a plain-string pattern). -/
def replFirstCs (pat rep : List Char) : List Char → List Char
  | [] => []
  | c :: rest =>
    if pat.isPrefixOf (c :: rest) then rep ++ (c :: rest).drop pat.length
    else c :: replFirstCs pat rep rest

/-- JS `s.replace(pat, rep)` (first occurrence only). -/
def strReplaceFirst (s pat rep : String) : String :=
  String.mk (replFirstCs pat.data rep.data s.data)

/-- Does `pat` occur as a contiguous substring of `cs`?  (JS `RegExp.test`
with a literal-text pattern, and `String.includes`.) -/
def containsCs (pat : List Char) : List Char → Bool
  | [] => pat.isEmpty
  | c :: rest => pat.isPrefixOf (c :: rest) || containsCs pat rest

def strContains (s pat : String) : Bool := containsCs pat.data s.data

/-- JS `String.startsWith`. -/
def strStartsWith (s pat : String) : Bool := pat.data.isPrefixOf s.data

/-- First index of an element in a list, `none` when absent. -/
def listIdxOf (x : String) : List String → Option Nat
  | [] => none
  | y :: ys => if y = x then some 0 else (listIdxOf x ys).map (· + 1)

/-- JS `Array.indexOf` (used as `links.indexOf(link)`); `-1` is never hit by
the call sites because the element is always a member, so the model returns
`0` in that impossible case. -/
def jsIndexOf (links : List String) (x : String) : Nat := (listIdxOf x links).getD 0

/-- JS `String.toLowerCase` restricted to ASCII letters. -/
def strToLower (s : String) : String := String.mk (s.data.map Char.toLower)

/-- Join a list of character lists with a separator. -/
def joinWith (sep : List Char) : List (List Char) → List Char
  | [] => []
  | [x] => x
  | x :: xs => x ++ sep ++ joinWith sep xs

/-! ## JS numbers: the `Number(string)` coercion -/

/-- Digits to `Nat`. -/
def natOfDigits (cs : List Char) : Nat := cs.foldl (fun a c => a * 10 + (c.toNat - 48)) 0

/-- Drop trailing zeros of a fraction-digit list (value preserving; it keeps
the exactly-representable decimals of the sources on the integer path, which
the kernel can evaluate). -/
def stripTrailingZeros (cs : List Char) : List Char :=
  (cs.reverse.dropWhile (· = '0')).reverse

/-- Decimal body of `Number(_)`: optional integer digits, optional fraction.
Returns `none` for NaN. -/
def parseDecimal (sgn : Int) (cs : List Char) : Option ℚ :=
  let intDigits := cs.takeWhile isDigitChar
  let rest := cs.drop intDigits.length
  match rest with
  | [] => if intDigits.isEmpty then none else some ((sgn * (natOfDigits intDigits : Int) : Int) : ℚ)
  | '.' :: fr =>
    let fracDigits := fr.takeWhile isDigitChar
    let rest2 := fr.drop fracDigits.length
    if !rest2.isEmpty then none
    else if intDigits.isEmpty && fracDigits.isEmpty then none
    else
      let fr2 := stripTrailingZeros fracDigits
      if fr2.isEmpty then some ((sgn * (natOfDigits intDigits : Int) : Int) : ℚ)
      else some (mkRat (sgn * (natOfDigits (intDigits ++ fr2) : Int)) (10 ^ fr2.length))
  | _ => none

/-- Model of JS `Number(string)`: whitespace-trimmed; empty string is `0`;
optionally signed decimal numeral; everything else is NaN (`none`).  Scope:
exponent, hexadecimal and `Infinity` forms — never exercised by this
repository's inputs — are mapped to NaN. -/
def jsNumberOfString (s : String) : Option ℚ :=
  match trimCs s.data with
  | [] => some 0
  | '-' :: r => parseDecimal (-1) r
  | '+' :: r => parseDecimal 1 r
  | r => parseDecimal 1 r

/-- JS `Number(x)` for a possibly-`undefined` string; `Number(undefined)` is
NaN. -/
def jsNumberOpt : Option String → Option ℚ
  | none => none
  | some s => jsNumberOfString s

/-! ## The parsed-parameter value model

The block micro-language is a flat mapping whose values are scalars or flow
sequences of scalars, so parsed JS values are modelled by the non-nested
`JLeaf`/`JVal` (scope: one level of sequence nesting, which covers every value
shape this module's own YAML model and JSON serializer produce). -/

/-- A scalar JS value as it appears in a parsed parameter object:
a string, `null`, or `undefined`. -/
inductive JLeaf where
  | str (s : String)
  | nullv
  | undef
deriving DecidableEq, Repr

/-- A parameter value: a scalar or an array of scalars. -/
inductive JVal where
  | leaf (l : JLeaf)
  | arr (xs : List JLeaf)
deriving DecidableEq, Repr

/-- Abbreviation for a string value. -/
def JVal.str (s : String) : JVal := .leaf (.str s)

/-- The result of `parseYaml`/`JSON.parse` as used by `getParamsFromSource`:
an object (field list in insertion order), a top-level array, or a primitive
scalar (which is not an object and cannot take property assignments). -/
inductive PVal where
  | obj (m : List (String × JVal))
  | arrv (xs : List JLeaf)
  | scalar (s : String)
deriving DecidableEq, Repr

def PVal.isScalar : PVal → Bool
  | .scalar _ => true
  | _ => false

/-- Insert a key keeping first-insertion order with last-value-wins, the
behaviour of JS object literals / `Object.fromEntries` on duplicate keys. -/
def upsert (m : List (String × JVal)) (k : String) (v : JVal) : List (String × JVal) :=
  if m.any (·.1 = k) then m.map (fun p => if p.1 = k then (k, v) else p) else m ++ [(k, v)]

/-- JS property read `params[k]`: `undefined` when the key is absent. -/
def jsGet (m : List (String × JVal)) (k : String) : JVal :=
  ((m.find? (·.1 = k)).map (·.2)).getD (.leaf .undef)

/-- JS string coercion of a parameter value (`String(x)`): arrays join with
commas, `null` and `undefined` print their names. -/
def strOfJLeaf : JLeaf → String
  | .str s => s
  | .nullv => "null"
  | .undef => "undefined"

def strOfJVal : JVal → String
  | .leaf l => strOfJLeaf l
  | .arr xs => String.mk (joinWith [','] (xs.map (fun l => (strOfJLeaf l).data)))

/-! ## Model of the host's YAML parser (`parseYaml`) -/

/-- One `key: value` line: the key before the first `": "` (or a line ending
in `:`), the value after it.  A trimmed empty value is YAML `null`; a value
wrapped in `[` … `]` is a flow sequence split on commas; anything else is a
string. -/
def yamlValueOfCs (cs : List Char) : JVal :=
  match trimCs cs with
  | [] => .leaf .nullv
  | t =>
    if t.head? = some '[' && t.getLast? = some ']' then
      let inner := trimCs (t.drop 1 |>.dropLast)
      if inner.isEmpty then .arr []
      else .arr ((listSplitOn [','] inner).map (fun e => .str (String.mk (trimCs e))))
    else .leaf (.str (String.mk t))

/-- Split a line at the first `": "`; `none` when the line is not of
`key: value` shape. -/
def findColonSpace : List Char → Option (List Char × List Char)
  | [] => none
  | ':' :: ' ' :: rest => some ([], rest)
  | c :: rest => (findColonSpace rest).map (fun p => (c :: p.1, p.2))

/-- Parse one line as a mapping entry. -/
def lineKV (l : String) : Option (String × JVal) :=
  match findColonSpace l.data with
  | some (k, v) => some (String.mk (trimCs k), yamlValueOfCs v)
  | none =>
    if l.data ≠ [] && l.data.getLast? = some ':' then
      some (String.mk (trimCs l.data.dropLast), .leaf .nullv)
    else none

/-- Modelled from the spec: the host's `parseYaml` (an external library) on
the block micro-language.  A document whose non-blank lines are all
`key: value` lines is a mapping, with repeated keys keeping only the last
occurrence (the spec: "the structured-parse step only keeps the last
occurrence of a repeated key"); a document with no such line is a plain
scalar (its text); an empty document is the empty mapping (the source's
`if (!params) params = {}` normalisation); a mixture raises a parse error,
which `getParamsFromSource` catches. -/
def parseYamlModel (source : String) : Except String PVal :=
  let lines := (strSplitOn "\n" source).filter (fun l => !(trimCs l.data).isEmpty)
  if lines.isEmpty then .ok (.obj [])
  else
    let kvs := lines.map lineKV
    if kvs.all (·.isSome) then
      .ok (.obj (kvs.foldl (fun m kv => match kv with
        | some (k, v) => upsert m k v
        | none => m) []))
    else if kvs.all (·.isNone) then
      .ok (.scalar (String.mk (joinWith [' '] (lines.map (fun l => trimCs l.data)))))
    else .error "YAMLException"

/-- Split on the regex `/:\s?/`: at each colon, also consuming one following
whitespace character. -/
def splitColonWsAux : Nat → List Char → List Char → List (List Char)
  | 0, cs, acc => [acc.reverse ++ cs]
  | fuel + 1, cs, acc =>
    match cs with
    | [] => [acc.reverse]
    | ':' :: c :: rest =>
      if isWsChar c then acc.reverse :: splitColonWsAux fuel rest []
      else acc.reverse :: splitColonWsAux fuel (c :: rest) []
    | ':' :: [] => [acc.reverse, []]
    | c :: rest => splitColonWsAux fuel rest (c :: acc)

def splitColonWs (l : String) : List String :=
  (splitColonWsAux (l.data.length + 1) l.data []).map String.mk

/-- The manual fallback parser of `getParamsFromSource`:
`Object.fromEntries(source.split("\n").map((l) => l.split(/:\s?/)))` — each
line becomes an entry of its first two split parts, a missing second part
being `undefined`. -/
def fallbackParse (source : String) : PVal :=
  .obj ((strSplitOn "\n" source).foldl (fun m l =>
    let parts := splitColonWs l
    upsert m ((parts.get? 0).getD "") (match parts.get? 1 with
      | some v => .str v
      | none => .leaf .undef)) [])

/-- `try { params = parseYaml(source) } catch { params = fromEntries(...) }`
combined with the `if (!params) params = {}` normalisation. -/
def paramsAfterYaml (source : String) : PVal :=
  match parseYamlModel source with
  | .ok v => v
  | .error _ => fallbackParse source

/-! ## Wiki-link handling of `getParamsFromSource` -/

/-- All matches of `/\[\[([^\[\]]*?)\]\]/g`: scan left to right for `[[`,
take the (possibly empty) run of non-bracket characters, and require a
closing `]]`; on failure resume one character further, exactly as the regex
engine does. -/
def extractLinksAux : Nat → List Char → List String
  | 0, _ => []
  | fuel + 1, cs =>
    match cs with
    | [] => []
    | '[' :: '[' :: rest =>
      let run := rest.takeWhile (fun c => c ≠ '[' && c ≠ ']')
      let rest2 := rest.drop run.length
      match rest2 with
      | ']' :: ']' :: tail =>
        (String.mk ('[' :: '[' :: run ++ [']', ']'])) :: extractLinksAux fuel tail
      | _ => extractLinksAux fuel ('[' :: rest)
    | _ :: rest => extractLinksAux fuel rest

def extractLinks (source : String) : List String :=
  extractLinksAux (source.data.length + 1) source.data

/-- The positional placeholder `LEAFLET_INTERNAL_LINK_<i>`. -/
def placeholder (i : Nat) : String := "LEAFLET_INTERNAL_LINK_" ++ toString i

/-- The forward loop: each link (first occurrence) is replaced by the
placeholder numbered by `links.indexOf(link)`. -/
def replaceLinksFwd (source : String) (links : List String) : String :=
  links.foldl (fun src link => strReplaceFirst src link (placeholder (jsIndexOf links link)))
    source

/-- The restore loop: each placeholder (first occurrence) is replaced back by
its link text. -/
def restoreLinks (s : String) (links : List String) : String :=
  links.foldl (fun acc link => strReplaceFirst acc (placeholder (jsIndexOf links link)) link) s

/-! ## Model of `JSON.stringify` / `JSON.parse` as used on the parameter
object.  Scope: the value shapes this module serializes — one object (or
array / string) whose values are scalars or arrays of scalars; strings escape
the quote, backslash and control characters exactly as JSON requires. -/

def lbrace : Char := Char.ofNat 123
def rbrace : Char := Char.ofNat 125

/-- JSON escaping of one character. -/
def jsonEscapeChar (c : Char) : List Char :=
  if c = '"' then ['\\', '"']
  else if c = '\\' then ['\\', '\\']
  else if c = '\n' then ['\\', 'n']
  else if c = '\t' then ['\\', 't']
  else if c = '\r' then ['\\', 'r']
  else [c]

def jsonStrLit (s : String) : List Char :=
  '"' :: (s.data.foldr (fun c acc => jsonEscapeChar c ++ acc) []) ++ ['"']

def jsonOfJLeaf : JLeaf → List Char
  | .str s => jsonStrLit s
  | .nullv => "null".data
  | .undef => "null".data

def jsonOfJVal : JVal → List Char
  | .leaf l => jsonOfJLeaf l
  | .arr xs => '[' :: joinWith [','] (xs.map jsonOfJLeaf) ++ [']']

/-- `JSON.stringify(params)`.  Object fields whose value is `undefined` are
dropped, as `JSON.stringify` does. -/
def jsonStringify : PVal → String
  | .obj m =>
    let fields := (m.filter (fun p => p.2 ≠ .leaf .undef)).map
      (fun p => jsonStrLit p.1 ++ ':' :: jsonOfJVal p.2)
    String.mk (lbrace :: joinWith [','] fields ++ [rbrace])
  | .arrv xs => String.mk ('[' :: joinWith [','] (xs.map jsonOfJLeaf) ++ [']'])
  | .scalar s => String.mk (jsonStrLit s)

/-- Parse a JSON string literal body (after the opening quote); returns the
decoded characters and the remainder after the closing quote. -/
def jsonParseStrAux : Nat → List Char → Option (List Char × List Char)
  | 0, _ => none
  | fuel + 1, cs =>
    match cs with
    | [] => none
    | '"' :: rest => some ([], rest)
    | '\\' :: e :: rest =>
      let dec : Option Char :=
        if e = '"' then some '"'
        else if e = '\\' then some '\\'
        else if e = '/' then some '/'
        else if e = 'n' then some '\n'
        else if e = 't' then some '\t'
        else if e = 'r' then some '\r'
        else none
      match dec with
      | some d => (jsonParseStrAux fuel rest).map (fun p => (d :: p.1, p.2))
      | none => none
    | c :: rest =>
      if c.toNat < 32 then none
      else (jsonParseStrAux fuel rest).map (fun p => (c :: p.1, p.2))

def jsonSkipWs (cs : List Char) : List Char := cs.dropWhile isWsChar

/-- Parse one scalar JSON value (string literal or `null`). -/
def jsonParseLeaf (fuel : Nat) (cs : List Char) : Option (JLeaf × List Char) :=
  match cs with
  | '"' :: rest => (jsonParseStrAux fuel rest).map (fun p => (.str (String.mk p.1), p.2))
  | 'n' :: 'u' :: 'l' :: 'l' :: rest => some (.nullv, rest)
  | _ => none

/-- Parse a comma-separated list of scalar values up to `]`. -/
def jsonParseArrAux : Nat → List Char → Option (List JLeaf × List Char)
  | 0, _ => none
  | fuel + 1, cs =>
    match jsonParseLeaf fuel (jsonSkipWs cs) with
    | none => none
    | some (l, rest) =>
      match jsonSkipWs rest with
      | ',' :: rest2 => (jsonParseArrAux fuel rest2).map (fun p => (l :: p.1, p.2))
      | ']' :: rest2 => some ([l], rest2)
      | _ => none

def jsonParseArr (fuel : Nat) (cs : List Char) : Option (List JLeaf × List Char) :=
  match jsonSkipWs cs with
  | ']' :: rest => some ([], rest)
  | cs2 => jsonParseArrAux fuel cs2

/-- Parse one JSON value of the modelled shapes. -/
def jsonParseVal (fuel : Nat) (cs : List Char) : Option (JVal × List Char) :=
  match cs with
  | '[' :: rest => (jsonParseArr fuel rest).map (fun p => (.arr p.1, p.2))
  | _ => (jsonParseLeaf fuel cs).map (fun p => (.leaf p.1, p.2))

/-- Parse the fields of an object after the opening brace. -/
def jsonParseObjAux : Nat → List Char → Option (List (String × JVal) × List Char)
  | 0, _ => none
  | fuel + 1, cs =>
    match jsonSkipWs cs with
    | '"' :: rest =>
      match jsonParseStrAux fuel rest with
      | none => none
      | some (k, rest2) =>
        match jsonSkipWs rest2 with
        | ':' :: rest3 =>
          match jsonParseVal fuel (jsonSkipWs rest3) with
          | none => none
          | some (v, rest4) =>
            match jsonSkipWs rest4 with
            | ',' :: rest5 =>
              (jsonParseObjAux fuel rest5).map (fun p => ((String.mk k, v) :: p.1, p.2))
            | c :: rest5 =>
              if c = rbrace then some ([(String.mk k, v)], rest5) else none
            | [] => none
        | _ => none
    | _ => none

/-- `JSON.parse`, scoped to the shapes `jsonStringify` emits; malformed text
(such as an unescaped quote inserted by link restoration) raises a
`SyntaxError` which `getParamsFromSource` does not catch. -/
def jsonParseP (s : String) : Except String PVal :=
  let fuel := s.data.length + 1
  let cs := jsonSkipWs s.data
  let result : Option (PVal × List Char) :=
    match cs with
    | c :: rest =>
      if c = lbrace then
        match jsonSkipWs rest with
        | d :: rest2 =>
          if d = rbrace then some (.obj [], rest2)
          else (jsonParseObjAux fuel rest).map (fun p => (.obj p.1, p.2))
        | [] => none
      else if c = '[' then (jsonParseArr fuel rest).map (fun p => (.arrv p.1, p.2))
      else if c = '"' then (jsonParseStrAux fuel rest).map (fun p => (.scalar (String.mk p.1), p.2))
      else none
    | [] => none
  match result with
  | some (v, rest) => if (jsonSkipWs rest).isEmpty then .ok v else .error "SyntaxError"
  | none => .error "SyntaxError"

/-! ## `getParamsFromSource` -/

/-- The normalized block parameters (`BlockParameters`).  `raw` is the
surviving top-level mapping; `image`/`layers` and the eight marker-ish keys
are the fields the function explicitly (re)assigns.  A `layers` entry is
`Option String` because the source's `p.split("image: ")[1]` can be
`undefined` for an `image:`-line without a space. -/
structure BlockParameters where
  raw : List (String × JVal)
  image : Option String
  layers : List (Option String)
  marker : List String
  markerFile : List String
  markerFolder : List String
  markerTag : List (List String)
  commandMarker : List String
  geojson : List String
  linksTo : List String
  linksFrom : List String
deriving DecidableEq, Repr

/-- JS `params.layers[0]` where entries may be `undefined`: out-of-range and
`undefined` entries both read as `undefined`. -/
def jsIndexZero (l : List (Option String)) : Option String :=
  match l.head? with
  | some (some s) => some s
  | _ => none

/-- The lines matched by `/^\bimage\b:[\s\S]*?$/gm`: exactly the lines
beginning with `image:` (each match extends to its line end). -/
def imageLines (source : String) : List String :=
  (strSplitOn "\n" source).filter (fun l => strStartsWith l "image:")

/-- `p.split("image: ")[1]` on one matched line. -/
def imageLineValue (l : String) : Option String := (strSplitOn "image: " l).get? 1

/-- Split on the regex `sep + ":\s?"` resp. `sep`-char followed by an
optional single whitespace (used for `/(?:<key>):\s?/` and `/,\s?/`). -/
def splitSepWsAux (sep : List Char) : Nat → List Char → List Char → List (List Char)
  | 0, cs, acc => [acc.reverse ++ cs]
  | fuel + 1, cs, acc =>
    match cs with
    | [] => [acc.reverse]
    | c :: rest =>
      if sep.isPrefixOf cs then
        match cs.drop sep.length with
        | w :: rest2 =>
          if isWsChar w then acc.reverse :: splitSepWsAux sep fuel rest2 []
          else acc.reverse :: splitSepWsAux sep fuel (w :: rest2) []
        | [] => [acc.reverse, []]
      else splitSepWsAux sep fuel rest (c :: acc)

def splitSepWs (sep s : String) : List String :=
  (splitSepWsAux sep.data (s.data.length + 1) s.data []).map String.mk

/-- The lines matched by `/^\b<key>\b:\s?([\s\S]*?)$/gm`: the lines beginning
with `<key>:`. -/
def keyLines (k source : String) : List String :=
  (strSplitOn "\n" source).filter (fun l => strStartsWith l (k ++ ":"))

/-- `p.split(/(?:<key>):\s?/)[1]?.trim()` on one matched line (for a matched
line the split always has a second part, so the value is never
`undefined`). -/
def keyLineValue (k line : String) : Option String :=
  ((splitSepWs (k ++ ":") line).get? 1).map strTrim

/-- The `default` arm of the per-key extraction: repeated standalone lines
win; else a structured sequence is used verbatim; else a present scalar is
wrapped. -/
def extractKeyDefault (source : String) (m : List (String × JVal)) (k : String) : List String :=
  let lines := keyLines k source
  if lines.length > 1 then lines.filterMap (keyLineValue k)
  else
    match jsGet m k with
    | .arr xs => xs.map strOfJLeaf
    | .leaf .undef => []
    | v => [strOfJVal v]

/-- The `markerFile` arm: like the default arm but with the structured
sequence flattened (`.flat(2)`); in the flat value model a sequence is
already flat, so flattening is the identity. -/
def extractKeyFile (source : String) (m : List (String × JVal)) : List String :=
  let lines := keyLines "markerFile" source
  if lines.length > 1 then lines.filterMap (keyLineValue "markerFile")
  else
    match jsGet m "markerFile" with
    | .arr xs => xs.map strOfJLeaf
    | .leaf .undef => []
    | v => [strOfJVal v]

/-- The `markerTag` arm: repeated lines each split on `/,\s?/`; a structured
sequence has each entry coerced to a sequence of tags (in the flat value
model every entry is a scalar, hence wrapped); a scalar becomes a single
one-tag group. -/
def extractKeyTag (source : String) (m : List (String × JVal)) : List (List String) :=
  let lines := keyLines "markerTag" source
  if lines.length > 1 then
    lines.filterMap (fun l => (keyLineValue "markerTag" l).map (fun v => splitSepWs "," v))
  else
    match jsGet m "markerTag" with
    | .arr xs => xs.map (fun l => [strOfJLeaf l])
    | .leaf .undef => []
    | v => [[strOfJVal v]]

/-- The guard `new RegExp("(marker|markerFile|...)").test(source)`: any of
the eight key names occurring as a substring. -/
def hasMarkerKey (source : String) : Bool :=
  strContains source "marker" || strContains source "markerFile" ||
  strContains source "markerFolder" || strContains source "markerTag" ||
  strContains source "commandMarker" || strContains source "geojson" ||
  strContains source "linksTo" || strContains source "linksFrom"

/-- The `finally` body of `getParamsFromSource` after the link round-trip:
the image/layers normalisation, the per-key extraction and the final
`Object.assign`.  A primitive (scalar) parameter value cannot take the
`params.layers` assignment, so reading `params.layers[0]` back throws a
`TypeError` (under strict mode the assignment itself throws). -/
def buildParams (params : PVal) (source : String) : Except String BlockParameters :=
  match params with
  | .scalar _ => .error "TypeError"
  | _ =>
    let m := match params with
      | .obj fields => fields
      | _ => []
    let image : List String :=
      match jsGet m "image" with
      | .leaf (.str s) => [s]
      | .arr xs => xs.map strOfJLeaf
      | _ => ["real"]
    let layers : List (Option String) :=
      if (imageLines source).length > 1 then (imageLines source).map imageLineValue
      else image.map some
    let useKeys := hasMarkerKey source
    .ok {
      raw := m
      image := jsIndexZero layers
      layers := layers
      marker := if useKeys then extractKeyDefault source m "marker" else []
      markerFile := if useKeys then extractKeyFile source m else []
      markerFolder := if useKeys then extractKeyDefault source m "markerFolder" else []
      markerTag := if useKeys then extractKeyTag source m else []
      commandMarker := if useKeys then extractKeyDefault source m "commandMarker" else []
      geojson := if useKeys then extractKeyDefault source m "geojson" else []
      linksTo := if useKeys then extractKeyDefault source m "linksTo" else []
      linksFrom := if useKeys then extractKeyDefault source m "linksFrom" else []
    }

/-- `getParamsFromSource`: pull out wiki links, parse (YAML with manual
fallback), substitute the links back through the serialized object, then
normalise images/layers and the marker-ish keys. -/
def getParamsFromSource (source : String) : Except String BlockParameters :=
  let links := extractLinks source
  let source1 := replaceLinksFwd source links
  let params0 := paramsAfterYaml source1
  if links.isEmpty then buildParams params0 source1
  else
    let stringified := restoreLinks (jsonStringify params0) links
    let source2 := restoreLinks source1 links
    match jsonParseP stringified with
    | .ok p => buildParams p source2
    | .error e => .error e

/-! ## `getImmutableItems` (inline marker and command-marker rows) -/

/-- `parseLink`: strip every `[` and `]` character. -/
def parseLink (link : String) : String :=
  String.mk (link.data.filter (fun c => c ≠ '[' && c ≠ ']'))

/-- `/\[\[[\s\S]+\]\]/.test(link)`: a `[[` with a `]]` starting at least one
character later. -/
def wikiLinkTestAux : Nat → List Char → Bool
  | 0, _ => false
  | fuel + 1, cs =>
    match cs with
    | '[' :: '[' :: rest => containsCs [']', ']'] (rest.drop 1)
    | _ :: rest => wikiLinkTestAux fuel rest
    | [] => false

def wikiLinkTest (link : String) : Bool := wikiLinkTestAux (link.data.length + 1) link.data

/-- Model of `papaparse.parse(text).data`: rows split on newlines, fields on
commas.  Scope: the unquoted CSV rows this module feeds it; an empty input
yields no rows. -/
def parseCSVdata (s : String) : List (List String) :=
  if s = "" then [] else (strSplitOn "\n" s).map (strSplitOn ",")

/-- One resolved marker record, the element type of the `markers` array
returned by `getImmutableItems`. -/
structure MarkerTuple where
  type : String
  lat : ℚ
  long : ℚ
  link : Option String
  layer : Option String
  command : Bool
  id : Option String
  desc : Option String
  minZoom : Option ℚ
  maxZoom : Option ℚ
deriving DecidableEq, Repr

/-- A command registered in the host's command palette
(`app.commands.listCommands()` entries). -/
structure CommandDef where
  name : String
  id : String
deriving DecidableEq, Repr

/-- The `type` normalisation: empty, missing or the literal `"undefined"`
become `"default"`. -/
def normalizeType : Option String → String
  | none => "default"
  | some t => if t = "" || t = "undefined" then "default" else t

/-- The `link` normalisation: empty, missing or `"undefined"` become
`undefined`; a wiki link is unwrapped via `parseLink`. -/
def normalizeLink : Option String → Option String
  | none => none
  | some l =>
    if l = "" || l = "undefined" then none
    else if wikiLinkTest l then some (parseLink l)
    else some l

/-- The `layer` normalisation: empty, missing or `"undefined"` become
`undefined`. -/
def normalizeLayer : Option String → Option String
  | none => none
  | some l => if l = "" || l = "undefined" then none else some l

/-- Body of the plain-marker loop of `getImmutableItems` for one CSV spec
string.  `none` models the `continue` taken (with a user notice) when the
row is empty or latitude/longitude do not parse. -/
def processMarker (marker : String) : Option MarkerTuple :=
  let data := parseCSVdata marker
  match data.head? with
  | none => none
  | some row =>
    let latF := row.get? 1
    let longF := row.get? 2
    if latF = none || latF = some "" || jsNumberOpt latF = none then none
    else if longF = none || longF = some "" || jsNumberOpt longF = none then none
    else
      match jsNumberOpt latF, jsNumberOpt longF with
      | some lat, some long =>
        some {
          type := normalizeType (row.get? 0)
          lat := lat
          long := long
          link := normalizeLink (row.get? 3)
          layer := normalizeLayer (row.get? 4)
          command := false
          id := none
          desc := none
          minZoom := jsNumberOpt (row.get? 5)
          maxZoom := jsNumberOpt (row.get? 6)
        }
      | _, _ => none

/-- Body of the command-marker loop for one CSV spec string: identical row
parsing, then the command lookup
`commands.find(({name: n, id}) => n == link || id == link)` — a strict
(case-sensitive) comparison — whose result is destructured without a guard,
so a missing match throws a `TypeError`. -/
def processCommandMarker (commands : List CommandDef) (marker : String) :
    Except String (Option MarkerTuple) :=
  let data := parseCSVdata marker
  match data.head? with
  | none => .ok none
  | some row =>
    let latF := row.get? 1
    let longF := row.get? 2
    if latF = none || latF = some "" || jsNumberOpt latF = none then .ok none
    else if longF = none || longF = some "" || jsNumberOpt longF = none then .ok none
    else
      match jsNumberOpt latF, jsNumberOpt longF with
      | some lat, some long =>
        let link := normalizeLink (row.get? 3)
        match commands.find? (fun c => link = some c.name || link = some c.id) with
        | none => .error "TypeError"
        | some c =>
          .ok (some {
            type := normalizeType (row.get? 0)
            lat := lat
            long := long
            link := some c.id
            layer := normalizeLayer (row.get? 4)
            command := true
            id := none
            desc := none
            minZoom := jsNumberOpt (row.get? 5)
            maxZoom := jsNumberOpt (row.get? 6)
          })
      | _, _ => .ok none

/-- The inline portion of `getImmutableItems`: the plain-marker loop followed
by the command-marker loop, pushing onto one result array.  The
cross-document phase (vault scanning) contributes nothing to these rows; its
entry guard is embedded separately as `crossDocGuard`. -/
def getImmutableItems (commands : List CommandDef) (markers commandMarkers : List String) :
    Except String (List MarkerTuple) := do
  let ms := markers.filterMap processMarker
  commandMarkers.foldlM (fun acc row => do
    match ← processCommandMarker commands row with
    | some t => pure (acc ++ [t])
    | none => pure acc) ms

/-- A JS array value is always truthy. -/
def jsTruthyArr (_ : List String) : Bool := true

/-- The guard of the cross-document phase:
`markerFiles.length || markerFolders.length || markerTags.length ||
linksTo.length || linksFrom` — note the last disjunct tests the `linksFrom`
array itself (truthy for any array), not its length. -/
def crossDocGuard (markerFiles markerFolders : List String) (markerTags : List (List String))
    (linksTo linksFrom : List String) : Bool :=
  markerFiles.length != 0 || markerFolders.length != 0 ||
    markerTags.length != 0 || linksTo.length != 0 || jsTruthyArr linksFrom

/-! ## The `Marker` entity (`src/layer/marker.ts`) -/

/-- Tooltip display mode. -/
inductive TooltipDisplay where
  | always
  | hover
  | never
deriving DecidableEq, Repr

/-- The marker's target: the `Link` / `Command` subclasses of `MarkerTarget`,
carrying their `text` (which may be `undefined`). -/
inductive MarkerTarget where
  | link (text : Option String)
  | command (text : Option String)
deriving DecidableEq, Repr

/-- `target.text`. -/
def MarkerTarget.text : MarkerTarget → Option String
  | .link t => t
  | .command t => t

/-- The `Marker` entity state: the constructor-assigned fields (the
presentation proxy `leafletInstance`/`divIcon` and the popup are the
mapping-library objects, outside the model). -/
structure Marker where
  target : MarkerTarget
  mutable : Bool
  type : String
  command : Bool
  loc : ℚ × ℚ
  percent : Option (ℚ × ℚ)
  id : String
  layer : Option String
  zoom : Option ℚ
  minZoom : Option ℚ
  maxZoom : Option ℚ
  description : Option String
  tooltip : Option TooltipDisplay
  displayed : Bool
deriving DecidableEq, Repr

/-- The constructor's property bag (`MarkerProperties`; the `icon` member
only feeds the presentation proxy and is outside the model). -/
structure MarkerProperties where
  id : String
  type : String
  loc : ℚ × ℚ
  link : Option String
  layer : Option String
  mutable : Bool
  command : Bool
  zoom : Option ℚ
  percent : Option (ℚ × ℚ)
  description : Option String
  minZoom : Option ℚ
  maxZoom : Option ℚ
  tooltip : Option TooltipDisplay
deriving DecidableEq, Repr

/-- The `Marker` constructor: the target is first chosen by the
`command`/`link` branches, then the `link` and `command` setters run, so the
net target is a `Command` carrying `link` when `command` is set and a `Link`
carrying `link` otherwise.  `displayed` starts unset (falsy); `show()` may
set it later. -/
def mkMarker (p : MarkerProperties) : Marker where
  target := if p.command then .command p.link else .link p.link
  mutable := p.mutable
  type := p.type
  command := p.command
  loc := p.loc
  percent := p.percent
  id := p.id
  layer := p.layer
  zoom := p.zoom
  minZoom := p.minZoom
  maxZoom := p.maxZoom
  description := p.description
  tooltip := p.tooltip
  displayed := false

/-- JS loose equality `a == b` on two nullable numbers (`null == null` and
`null == undefined` are true; a number never equals `null`). -/
def jsLooseEq (a b : Option ℚ) : Bool :=
  match a, b with
  | none, none => true
  | some x, some y => x == y
  | _, _ => false

/-- `shouldShow(zoom)`. -/
def Marker.shouldShow (m : Marker) (zoom : ℚ) : Bool :=
  if jsLooseEq m.minZoom m.maxZoom && m.minZoom.isNone then true
  else if !m.displayed then
    match m.minZoom, m.maxZoom with
    | some mn, some mx => decide (mn ≤ zoom) && decide (zoom ≤ mx)
    | _, _ => false
  else false

/-- `shouldHide(zoom)`; the source returns `undefined` (falsy) outside the
`displayed` branch, modelled as `false`. -/
def Marker.shouldHide (m : Marker) (zoom : ℚ) : Bool :=
  if m.displayed then
    (match m.minZoom with
      | some mn => decide (mn > zoom)
      | none => false) ||
    (match m.maxZoom with
      | some mx => decide (zoom > mx)
      | none => false)
  else false

/-- The persisted record produced by `toProperties()`
(`SavedMarkerProperties`). -/
structure SavedMarkerProperties where
  id : String
  type : String
  loc : ℚ × ℚ
  link : Option String
  layer : Option String
  mutable : Bool
  command : Bool
  zoom : Option ℚ
  percent : Option (ℚ × ℚ)
  description : Option String
  minZoom : Option ℚ
  maxZoom : Option ℚ
  tooltip : Option TooltipDisplay
deriving DecidableEq, Repr

/-- `toProperties()`. -/
def Marker.toProperties (m : Marker) : SavedMarkerProperties where
  id := m.id
  type := m.type
  loc := (m.loc.1, m.loc.2)
  link := m.target.text
  layer := m.layer
  mutable := m.mutable
  command := m.command
  zoom := m.zoom
  percent := m.percent
  description := m.description
  minZoom := m.minZoom
  maxZoom := m.maxZoom
  tooltip := m.tooltip

/-- Modelled from the spec: the reconstruction of a `Marker` from a
persisted record ("reconstruct then `toProperties()` again") — the map code
performing it is outside the provided sources; every field passes through
unchanged, the coordinate pair becoming the constructor's `loc`. -/
def markerPropsOfSaved (s : SavedMarkerProperties) : MarkerProperties where
  id := s.id
  type := s.type
  loc := s.loc
  link := s.link
  layer := s.layer
  mutable := s.mutable
  command := s.command
  zoom := s.zoom
  percent := s.percent
  description := s.description
  minZoom := s.minZoom
  maxZoom := s.maxZoom
  tooltip := s.tooltip

/-- A marker with given zoom bounds and displayed state (remaining fields
fixed), used to state the visibility truth tables. -/
def visMarker (mn mx : Option ℚ) (d : Bool) : Marker where
  target := .link none
  mutable := false
  type := "default"
  command := false
  loc := (0, 0)
  percent := none
  id := "test"
  layer := none
  zoom := none
  minZoom := mn
  maxZoom := mx
  description := none
  tooltip := none
  displayed := d

/-! ## `saveSettings` pruning (`src/main.ts`) -/

/-- A persisted overlay record. -/
structure SavedOverlayData where
  color : String
  loc : ℚ × ℚ
  length : String
  desc : String
  id : String
deriving DecidableEq, Repr

/-- One persisted map record of `data.mapMarkers`. -/
structure MapMarkerData where
  id : String
  files : List String
  lastAccessed : Option Int
  markers : List SavedMarkerProperties
  overlays : List SavedOverlayData
deriving DecidableEq, Repr

/-- The two pruning filters of `saveSettings` (after the per-open-map merge):
keep records with marker or overlay data, then keep records that have no id,
or are associated with files, or were accessed within
`6.048e8` ms (`lastAccessed` defaulting to `Date.now()`). -/
def pruneMapMarkers (now : Int) (mapMarkers : List MapMarkerData) : List MapMarkerData :=
  (mapMarkers.filter (fun r => r.markers.length > 0 || r.overlays.length > 0)).filter
    (fun r => r.id = "" || r.files.length != 0 || decide (now - r.lastAccessed.getD now ≤ 604800000))

/-! ## `getId` -/

/-- Hex digit as produced by `Number.toString(16)` (lowercase). -/
def hexDigit (n : Nat) : Char := if n < 10 then Char.ofNat (48 + n) else Char.ofNat (87 + n)

/-- `"ID_xyxyxyxyxyxy".replace(/[xy]/g, c => ...)`: each matched `x`/`y`
consumes one random draw `r = (Math.random() * 16) | 0 : Fin 16`; `x` maps to
`r`, `y` to `(r & 0x3) | 0x8`, rendered in lowercase hex.  `f` is the stream
of draws. -/
def getIdAux (f : Nat → Fin 16) : Nat → List Char → List Char
  | _, [] => []
  | k, c :: cs =>
    if c = 'x' then hexDigit (f k).val :: getIdAux f (k + 1) cs
    else if c = 'y' then hexDigit (((f k).val &&& 3) ||| 8) :: getIdAux f (k + 1) cs
    else c :: getIdAux f k cs

def getId (f : Nat → Fin 16) : String := String.mk (getIdAux f 0 "ID_xyxyxyxyxyxy".data)

/-- Modelled from the spec: the predicate "zoom falls outside whichever
bound(s) are set", used to compare `shouldHide` against the specification's
wording. -/
def specOutsideBounds (mn mx : Option ℚ) (zoom : ℚ) : Bool :=
  (match mn with
    | some a => decide (a > zoom)
    | none => false) ||
  (match mx with
    | some b => decide (zoom > b)
    | none => false)

/-! ## Helper lemmas -/

/-- With no wiki links the parse stage feeds the original source straight to
the `finally` body. -/
lemma getParamsFromSource_of_no_links (source : String) (h : extractLinks source = []) :
    getParamsFromSource source = buildParams (paramsAfterYaml source) source := by
  simp only [getParamsFromSource, h, List.isEmpty_nil, if_true, replaceLinksFwd, List.foldl_nil]

/-- The fields of `jsGet` relevant to the image normalisation. -/
def imageListOf (m : List (String × JVal)) : List String :=
  match jsGet m "image" with
  | .leaf (.str s) => [s]
  | .arr xs => xs.map strOfJLeaf
  | _ => ["real"]

/-- The object fields a parse result exposes to property reads (a top-level
array or primitive exposes none of the keys this module reads). -/
def objFieldsOf : PVal → List (String × JVal)
  | .obj fields => fields
  | _ => []

/-- Shape of every successful `buildParams` result: `layers` comes from the
repeated `image:` lines (when more than one) or the normalised image list,
and `image` is the JS read `layers[0]`. -/
lemma buildParams_ok_shape (p : PVal) (src : String) (bp : BlockParameters)
    (h : buildParams p src = .ok bp) :
    bp.image = jsIndexZero bp.layers ∧
    bp.layers = (if (imageLines src).length > 1 then (imageLines src).map imageLineValue
      else (imageListOf (objFieldsOf p)).map some) := by
  cases p with
  | scalar s => exact absurd h (by simp [buildParams])
  | obj fields =>
    have h' := h
    simp only [buildParams, Except.ok.injEq, imageListOf, objFieldsOf] at h'
    subst h'
    constructor
    · rfl
    · rfl
  | arrv xs =>
    have h' := h
    simp only [buildParams, Except.ok.injEq, imageListOf, objFieldsOf] at h'
    subst h'
    exact ⟨rfl, rfl⟩

/-! ## Claims -/

/-- C1 (counterexample): on the source text
`id: test\nmarker: pin,40.0,-75.0,[[Note]],,2,8` the pipeline does *not*
produce the tuple with marker type `"default"` claimed by the specification:
the CSV `type` field is `"pin"`, which is neither empty nor the literal
`"undefined"`, so it is kept as is. -/
theorem C1_marker_pipeline_counterexample :
    getImmutableItems [] ["pin,40.0,-75.0,[[Note]],,2,8"] []
        ≠ .ok [⟨"default", 40, -75, some "Note", none, false, none, none, some 2, some 8⟩] ∧
    (getParamsFromSource "id: test\nmarker: pin,40.0,-75.0,[[Note]],,2,8").map
        (fun p => p.marker) = .ok ["pin,40.0,-75.0,[[Note]],,2,8"] := by
  decide

/-- C1 (amended): the source text
`id: test\nmarker: pin,40.0,-75.0,[[Note]],,2,8` parses to exactly one
marker spec, and resolving it yields exactly one marker tuple
`("pin", 40.0, -75.0, "Note", undefined, false, null, null, 2, 8)`. -/
theorem C1_marker_pipeline :
    (getParamsFromSource "id: test\nmarker: pin,40.0,-75.0,[[Note]],,2,8").map
        (fun p => p.marker) = .ok ["pin,40.0,-75.0,[[Note]],,2,8"] ∧
    getImmutableItems [] ["pin,40.0,-75.0,[[Note]],,2,8"] []
      = .ok [⟨"pin", 40, -75, some "Note", none, false, none, none, some 2, some 8⟩] := by
  decide

/-- C9: the cross-document phase's guard evaluates to true even when all
five filter lists are empty, because its last disjunct tests the `linksFrom`
array itself — always truthy — instead of `linksFrom.length`; the phase
(including the external-index lookup) therefore executes unconditionally,
contradicting the claim. -/
theorem C9_crossdoc_guard_always_true : crossDocGuard [] [] [] [] [] = true := by decide

/-- C10: for every stream of random draws, `getId` returns a 15-character
string `ID_` followed by 12 lowercase hexadecimal digits, and the 2nd, 4th,
6th, 8th, 10th and 12th of those digits (string indices 4, 6, 8, 10, 12, 14)
are drawn from `8`, `9`, `a`, `b`. -/
theorem C10_getId_shape :
    ∀ f : Nat → Fin 16,
      (getId f).length = 15 ∧
      (getId f).data.take 3 = ['I', 'D', '_'] ∧
      (∀ c ∈ (getId f).data.drop 3, c ∈ "0123456789abcdef".data) ∧
      (∀ i ∈ [4, 6, 8, 10, 12, 14], ∀ c, (getId f).data.get? i = some c → c ∈ "89ab".data) := by
  intro f
  have hx : ∀ v : Fin 16, hexDigit v.val ∈ "0123456789abcdef".data := by decide
  have hy : ∀ v : Fin 16, hexDigit ((v.val &&& 3) ||| 8) ∈ "89ab".data := by decide
  have hy' : ∀ v : Fin 16, hexDigit ((v.val &&& 3) ||| 8) ∈ "0123456789abcdef".data := by decide
  have hform : (getId f).data =
      ['I', 'D', '_',
        hexDigit (f 0).val, hexDigit (((f 1).val &&& 3) ||| 8),
        hexDigit (f 2).val, hexDigit (((f 3).val &&& 3) ||| 8),
        hexDigit (f 4).val, hexDigit (((f 5).val &&& 3) ||| 8),
        hexDigit (f 6).val, hexDigit (((f 7).val &&& 3) ||| 8),
        hexDigit (f 8).val, hexDigit (((f 9).val &&& 3) ||| 8),
        hexDigit (f 10).val, hexDigit (((f 11).val &&& 3) ||| 8)] := rfl
  refine ⟨rfl, ?_, ?_, ?_⟩
  · rw [hform]
    rfl
  · intro c hc
    rw [hform] at hc
    simp only [List.drop, List.mem_cons, List.not_mem_nil, or_false] at hc
    rcases hc with rfl | rfl | rfl | rfl | rfl | rfl | rfl | rfl | rfl | rfl | rfl | rfl <;>
      first
        | exact hx _
        | exact hy' _
  · intro i hi c hc
    rw [hform] at hc
    simp only [List.mem_cons, List.not_mem_nil, or_false] at hi
    rcases hi with rfl | rfl | rfl | rfl | rfl | rfl <;>
      · simp only [List.get?] at hc
        cases hc
        exact hy _

/-- C5: the exact `shouldShow`/`shouldHide` truth table — a marker with both
zoom bounds null shows at every zoom and displayed state; a `(2,5)`-bounded
marker that is not displayed shows at zoom 3 but not 1; the same marker while
displayed hides at zoom 6 but not 3. -/
theorem C5_visibility_truth_table :
    (∀ (zoom : ℚ) (d : Bool), (visMarker none none d).shouldShow zoom = true) ∧
    (visMarker (some 2) (some 5) false).shouldShow 3 = true ∧
    (visMarker (some 2) (some 5) false).shouldShow 1 = false ∧
    (visMarker (some 2) (some 5) true).shouldHide 6 = true ∧
    (visMarker (some 2) (some 5) true).shouldHide 3 = false := by
  exact ⟨fun zoom d => rfl, by decide, by decide, by decide, by decide⟩

/-- A persisted marker record used in concrete pruning examples. -/
def sampleSaved : SavedMarkerProperties :=
  ⟨"m1", "default", (0, 0), none, none, true, false, none, none, none, none, none, none⟩

/-- A persisted map record with no id, no associated files, non-empty
markers, and a stale `lastAccessed`. -/
def staleNoIdRecord : MapMarkerData := ⟨"", [], some 0, [sampleSaved], []⟩

/-- A persisted map record like `staleNoIdRecord` but with an id. -/
def staleWithIdRecord : MapMarkerData := ⟨"map-1", [], some 0, [sampleSaved], []⟩

/-- C2 (counterexample): a persisted record with non-empty markers, zero
associated files and a `lastAccessed` older than 604,800,000 ms is *kept* by
the save-time pruning when its id is empty (the age filter keeps every
record with a falsy id), contradicting the claim that every such record is
removed. -/
theorem C2_prune_counterexample :
    pruneMapMarkers 700000000 [staleNoIdRecord] = [staleNoIdRecord] ∧
    staleNoIdRecord.markers ≠ [] ∧
    staleNoIdRecord.files = [] ∧
    604800000 < (700000000 : Int) - (staleNoIdRecord.lastAccessed.getD 700000000) := by
  decide

/-- C2 (amended): on every save, a record whose marker and overlay lists are
both empty is removed regardless of age; a record with a non-empty id, zero
associated files and a `lastAccessed` older than 604,800,000 ms is removed;
and a record with no id and marker data is kept by the age filter regardless
of `lastAccessed` — in particular one accessed within the 7-day window. -/
theorem C2_prune :
    ∀ (now : Int) (l : List MapMarkerData) (r : MapMarkerData),
      (r ∈ pruneMapMarkers now l → r.markers ≠ [] ∨ r.overlays ≠ []) ∧
      (r.id ≠ "" → r.files = [] → 604800000 < now - r.lastAccessed.getD now →
        r ∉ pruneMapMarkers now l) ∧
      (r ∈ l → r.id = "" → r.markers ≠ [] → r ∈ pruneMapMarkers now l) := by
  intro now l r
  refine ⟨?_, ?_, ?_⟩
  · intro h
    have h1 := (List.mem_filter.mp (List.mem_filter.mp h).1).2
    simp only [Bool.or_eq_true, decide_eq_true_eq, gt_iff_lt, List.length_pos] at h1
    exact h1
  · intro hid hfiles hstale h
    have h2 := (List.mem_filter.mp h).2
    simp only [hfiles, Bool.or_eq_true, decide_eq_true_eq, List.length_nil] at h2
    rcases h2 with (hid' | hlen) | hfresh
    · exact hid hid'
    · exact absurd hlen (by decide)
    · omega
  · intro hmem hid hmarkers
    refine List.mem_filter.mpr ⟨List.mem_filter.mpr ⟨hmem, ?_⟩, ?_⟩
    · simp only [Bool.or_eq_true, decide_eq_true_eq, gt_iff_lt, List.length_pos]
      exact Or.inl hmarkers
    · simp only [hid, Bool.or_eq_true, decide_eq_true_eq]
      exact Or.inl (Or.inl trivial)

/-- C2 (witness): the amended theorem applied to a stale record with an id
(removed) and to a no-id record (kept). -/
theorem C2_prune_witness :
    staleWithIdRecord ∉ pruneMapMarkers 700000000 [staleWithIdRecord] ∧
    staleNoIdRecord ∈ pruneMapMarkers 700000000 [staleNoIdRecord] := by
  refine ⟨(C2_prune 700000000 [staleWithIdRecord] staleWithIdRecord).2.1 ?_ ?_ ?_,
    (C2_prune 700000000 [staleNoIdRecord] staleNoIdRecord).2.2 ?_ ?_ ?_⟩
  · decide
  · decide
  · decide
  · decide
  · decide
  · decide

/-- C6: a marker with exactly one zoom bound set can never satisfy
`shouldShow` at any zoom and displayed state, while `shouldHide` while
displayed is exactly the spec's "zoom falls outside whichever bound(s) are
set" — a single bound suffices to hide but never to show. -/
theorem C6_single_bound :
    ∀ (m : Marker) (zoom : ℚ),
      (m.minZoom ≠ none ∧ m.maxZoom = none) ∨ (m.minZoom = none ∧ m.maxZoom ≠ none) →
      m.shouldShow zoom = false ∧
        (m.displayed = true → m.shouldHide zoom = specOutsideBounds m.minZoom m.maxZoom zoom) := by
  intro m zoom h
  constructor
  · rcases h with ⟨h1, h2⟩ | ⟨h1, h2⟩
    · obtain ⟨a, ha⟩ := Option.ne_none_iff_exists'.mp h1
      unfold Marker.shouldShow
      rw [ha, h2]
      cases m.displayed <;> simp [jsLooseEq]
    · obtain ⟨b, hb⟩ := Option.ne_none_iff_exists'.mp h2
      unfold Marker.shouldShow
      rw [hb, h1]
      cases m.displayed <;> simp [jsLooseEq]
  · intro hd
    unfold Marker.shouldHide specOutsideBounds
    rw [hd]
    simp

/-- C6 (witness): the single-bound theorem applied to a displayed marker with
only `minZoom = 2` at zoom 1. -/
theorem C6_single_bound_witness :
    (visMarker (some 2) none true).shouldShow 1 = false ∧
      ((visMarker (some 2) none true).displayed = true →
        (visMarker (some 2) none true).shouldHide 1 =
          specOutsideBounds (visMarker (some 2) none true).minZoom
            (visMarker (some 2) none true).maxZoom 1) :=
  C6_single_bound (visMarker (some 2) none true) 1 (Or.inl ⟨by decide, rfl⟩)

/-- C8: constructing a `Marker` from any property bag, persisting it with
`toProperties()`, reconstructing from the record and persisting again yields
a structurally identical record. -/
theorem C8_toProperties_roundtrip :
    ∀ p : MarkerProperties,
      (mkMarker (markerPropsOfSaved (mkMarker p).toProperties)).toProperties
        = (mkMarker p).toProperties := by
  intro p
  obtain ⟨id, ty, loc, lk, ly, mu, co, zo, pc, de, mn, mx, tt⟩ := p
  cases co <;> rfl

/-- C4 (counterexample): `getParamsFromSource` is not total — a scalar-only
document such as `hello` leaves a primitive where the object is expected and
the `params.layers` assignment/read throws a `TypeError`; a wiki link whose
text contains a double quote breaks the serialized-object round-trip and
`JSON.parse` throws a `SyntaxError`.  Both escape to the caller. -/
theorem C4_total_counterexample :
    getParamsFromSource "hello" = .error "TypeError" ∧
    getParamsFromSource "image: [[a\"b]]" = .error "SyntaxError" := by
  decide

/-- C4 (amended): `getParamsFromSource` returns a `BlockParameters` for every
input without embedded wiki links whose parse (structured or fallback) does
not produce a primitive scalar document; scalar-only documents and links
whose text breaks the JSON round-trip raise to the caller. -/
theorem C4_total_on_mapping_inputs :
    ∀ source : String,
      extractLinks source = [] →
      (paramsAfterYaml source).isScalar = false →
      ∃ bp, getParamsFromSource source = .ok bp := by
  intro source hl hs
  rw [getParamsFromSource_of_no_links source hl]
  cases hp : paramsAfterYaml source with
  | scalar s => rw [hp] at hs; exact absurd hs (by simp [PVal.isScalar])
  | obj fields => exact ⟨_, rfl⟩
  | arrv xs => exact ⟨_, rfl⟩

/-- C4 (witness): the amended totality theorem applied to `id: test`. -/
theorem C4_total_witness :
    extractLinks "id: test" = [] ∧
    (paramsAfterYaml "id: test").isScalar = false ∧
    ∃ bp, getParamsFromSource "id: test" = .ok bp :=
  ⟨by decide, by decide, C4_total_on_mapping_inputs "id: test" (by decide) (by decide)⟩

/-- C7 (counterexample): the block `image: []` — an explicit empty sequence
under the `image` key — produces an *empty* `layers` list (and an undefined
`image`), refuting the claim that `layers` is non-empty for every input. -/
theorem C7_layers_counterexample :
    (getParamsFromSource "image: []").map (fun p => (p.image, p.layers))
      = .ok (none, []) := by
  decide

/-- C7 (amended): for every successful parse, `image` is the JS read
`layers[0]`; for link-free sources, two or more standalone `image:` lines
make `layers` exactly those lines' values in source order, and `layers` can
only be empty when there is at most one `image:` line and the structured
parse bound `image` to an explicit empty sequence. -/
theorem C7_image_layers :
    ∀ (source : String) (bp : BlockParameters),
      getParamsFromSource source = .ok bp →
      bp.image = jsIndexZero bp.layers ∧
      (extractLinks source = [] →
        ((imageLines source).length > 1 → bp.layers = (imageLines source).map imageLineValue) ∧
        (bp.layers = [] →
          (imageLines source).length ≤ 1 ∧
            jsGet (objFieldsOf (paramsAfterYaml source)) "image" = .arr [])) := by
  intro source bp h
  constructor
  · simp only [getParamsFromSource] at h
    split at h
    · exact (buildParams_ok_shape _ _ _ h).1
    · split at h
      · exact (buildParams_ok_shape _ _ _ h).1
      · exact absurd h (by simp)
  · intro hl
    rw [getParamsFromSource_of_no_links source hl] at h
    have hshape := buildParams_ok_shape _ _ _ h
    constructor
    · intro hcount
      rw [hshape.2, if_pos hcount]
    · intro hempty
      by_cases hcount : (imageLines source).length > 1
      · exfalso
        have hthis := hshape.2
        rw [if_pos hcount, hempty] at hthis
        have hnil := List.map_eq_nil_iff.mp hthis.symm
        rw [hnil] at hcount
        exact absurd hcount (by decide)
      · refine ⟨Nat.le_of_not_lt hcount, ?_⟩
        have hlayers := hshape.2
        rw [if_neg hcount, hempty] at hlayers
        have him := List.map_eq_nil_iff.mp hlayers.symm
        unfold imageListOf at him
        cases hj : jsGet (objFieldsOf (paramsAfterYaml source)) "image" with
        | leaf l =>
          rw [hj] at him
          cases l <;> simp at him
        | arr xs =>
          rw [hj] at him
          have hxs := List.map_eq_nil_iff.mp him
          rw [hxs]

/-- Concrete result of parsing a two-`image:`-line block, for the C7
witness. -/
def multiImageParams : BlockParameters :=
  ⟨[("image", JVal.str "b")], some "a", [some "a", some "b"], [], [], [], [], [], [], [], []⟩

/-- C7 (witness): the amended theorem applied to `image: a\nimage: b`. -/
theorem C7_image_layers_witness :
    multiImageParams.image = jsIndexZero multiImageParams.layers ∧
    (extractLinks "image: a\nimage: b" = [] →
      ((imageLines "image: a\nimage: b").length > 1 →
        multiImageParams.layers = (imageLines "image: a\nimage: b").map imageLineValue) ∧
      (multiImageParams.layers = [] →
        (imageLines "image: a\nimage: b").length ≤ 1 ∧
          jsGet (objFieldsOf (paramsAfterYaml "image: a\nimage: b")) "image" = .arr [])) :=
  C7_image_layers "image: a\nimage: b" multiImageParams (by decide)

/-- C3 (counterexample): command-marker links are *not* matched
case-insensitively — a palette containing the command
`("Open Note", "open-note")` matches the row link `OPEN-NOTE` under
lowercasing, yet `getImmutableItems` fails with the destructuring
`TypeError` instead of resolving the row. -/
theorem C3_command_match_counterexample :
    getImmutableItems [⟨"Open Note", "open-note"⟩] [] ["pin,1,1,OPEN-NOTE"]
        = .error "TypeError" ∧
    strToLower "OPEN-NOTE" = strToLower "open-note" := by
  decide

/-- C3 (amended): a command-marker row's link is resolved against the
registered palette by *case-sensitive* strict equality on the command's
display name or identifier; a row matching no command makes
`getImmutableItems` fail with a `TypeError` (the row is not silently
skipped), while an exact match yields the command's id with the command flag
set. -/
theorem C3_command_match :
    ∀ commands : List CommandDef,
      (∀ c ∈ commands, c.name ≠ "open-note" ∧ c.id ≠ "open-note") →
      getImmutableItems commands [] ["pin,1,1,open-note"] = .error "TypeError" ∧
      getImmutableItems [⟨"Open Note", "open-note"⟩] [] ["pin,1,1,open-note"]
        = .ok [⟨"pin", 1, 1, some "open-note", none, true, none, none, none, none⟩] := by
  intro commands h
  refine ⟨?_, by decide⟩
  have hfind : commands.find? (fun c =>
      (some "open-note" : Option String) = some c.name ||
        (some "open-note" : Option String) = some c.id) = none := by
    apply List.find?_eq_none.mpr
    intro c hc
    obtain ⟨h1, h2⟩ := h c hc
    simp only [Option.some.injEq, Bool.or_eq_true, decide_eq_true_eq, not_or]
    exact ⟨fun e => h1 e.symm, fun e => h2 e.symm⟩
  have hrow : processCommandMarker commands "pin,1,1,open-note" = .error "TypeError" := by
    have hdef : processCommandMarker commands "pin,1,1,open-note" =
        (match commands.find? (fun c =>
            (some "open-note" : Option String) = some c.name ||
              (some "open-note" : Option String) = some c.id) with
          | none => Except.error "TypeError"
          | some c =>
            Except.ok (some ⟨"pin", 1, 1, some c.id, none, true, none, none, none, none⟩)) := rfl
    rw [hdef, hfind]
  show (do
    let ms := ([] : List String).filterMap processMarker
    ["pin,1,1,open-note"].foldlM (fun acc row => do
      match ← processCommandMarker commands row with
      | some t => pure (acc ++ [t])
      | none => pure acc) ms) = Except.error "TypeError"
  simp only [List.filterMap_nil, List.foldlM, hrow]
  rfl

/-- C3 (witness): the amended theorem applied to a palette containing no
command named or identified `open-note`. -/
theorem C3_command_match_witness :
    getImmutableItems [⟨"A", "b"⟩] [] ["pin,1,1,open-note"] = .error "TypeError" ∧
    getImmutableItems [⟨"Open Note", "open-note"⟩] [] ["pin,1,1,open-note"]
      = .ok [⟨"pin", 1, 1, some "open-note", none, true, none, none, none, none⟩] :=
  C3_command_match [⟨"A", "b"⟩] (by decide)

end Leaflet
